import Mathlib

/-!
# Verification of the Halide generator / backend-emission core

Shallow embedding of the parameterized pipeline-definition framework
(`test/generator/example_generator.cpp`) and of the backend emission
interface (`src/LLVM_Output.h`), together with proofs of the specified
properties.

The repository fragment ships only the example generator and the backend
emission header; the parameter-registry, generator-factory and emitter
implementations live outside the fragment, so those operations are
modelled from the specification (each such definition says so in its
doc comment).
-/

namespace HalideSpec

/-! ## Identifier validation

Parameter and generator names must match `[A-Za-z_][A-Za-z_0-9]*`, must
not start with an underscore, must not contain two consecutive
underscores, and must be non-empty. -/

/-- A letter `[A-Za-z]`. -/
def isLetter (ch : Char) : Bool :=
  ch.isUpper || ch.isLower

/-- A character allowed anywhere in `[A-Za-z_][A-Za-z_0-9]*`:
letter, digit, or underscore. -/
def isNameChar (ch : Char) : Bool :=
  isLetter ch || ch.isDigit || ch = '_'

/-- No two consecutive underscores in the character list. -/
def noDoubleUnderscore : List Char → Bool
  | [] => true
  | [_] => true
  | a :: b :: rest => !(a = '_' && b = '_') && noDoubleUnderscore (b :: rest)

/-- Modelled from the spec: the single-pass name check performed by
`declare`/`register` (the Halide-side implementation is outside the
source fragment). A valid name is non-empty, starts with a letter
(a leading underscore is forbidden outright), continues with letters,
digits or underscores, and never contains `__`. -/
def validName : List Char → Bool
  | [] => false
  | c :: rest => isLetter c && rest.all isNameChar && noDoubleUnderscore (c :: rest)

/-- Name validity on strings. -/
def is_valid_name (s : String) : Bool :=
  validName s.toList

/-! ### Reference predicates, stated separately from the checker,
following the claim's four conditions. -/

/-- Reference predicate: the list matches the regex
`[A-Za-z_][A-Za-z_0-9]*` (head is a letter or underscore, every later
character a letter, digit or underscore; the empty list does not match). -/
def matchesIdentRegex : List Char → Bool
  | [] => false
  | c :: rest => (isLetter c || c = '_') && rest.all isNameChar

/-- Reference predicate: the list starts with an underscore. -/
def hasLeadingUnderscore (l : List Char) : Bool :=
  l.head? = some '_'

/-- Reference predicate: positions `n` and `n + 1` both hold an
underscore somewhere in the list. -/
def HasDoubleUnderscoreAt (l : List Char) : Prop :=
  ∃ n, l.get? n = some '_' ∧ l.get? (n + 1) = some '_'

theorem noDoubleUnderscore_iff (l : List Char) :
    noDoubleUnderscore l = true ↔ ¬ HasDoubleUnderscoreAt l := by
  induction l with
  | nil =>
    simp [noDoubleUnderscore, HasDoubleUnderscoreAt]
  | cons a t ih =>
    cases t with
    | nil =>
      simp only [noDoubleUnderscore, HasDoubleUnderscoreAt]
      constructor
      · rintro - ⟨n, h1, h2⟩
        cases n <;> simp_all [List.get?]
      · intro _
        trivial
    | cons b rest =>
      simp only [noDoubleUnderscore, Bool.and_eq_true, Bool.not_eq_true',
        Bool.and_eq_false_iff] at *
      constructor
      · rintro ⟨hab, hrest⟩ ⟨n, h1, h2⟩
        cases n with
        | zero =>
          simp only [List.get?] at h1 h2
          rcases hab with h | h
          · exact absurd (Option.some.inj h1) (by simpa using h)
          · exact absurd (Option.some.inj h2) (by simpa using h)
        | succ m =>
          exact (ih.mp hrest) ⟨m, h1, h2⟩
      · intro h
        refine ⟨?_, ih.mpr ?_⟩
        · by_cases ha : a = '_'
          · by_cases hb : b = '_'
            · exact absurd ⟨0, by simp [List.get?, ha], by simp [List.get?, hb]⟩ h
            · right
              simpa using hb
          · left
            simpa using ha
        · rintro ⟨m, h1, h2⟩
          exact h ⟨m + 1, h1, h2⟩

/-- The validator accepts exactly the lists that are non-empty, match
the identifier regex, have no leading underscore, and have no doubled
underscore. -/
theorem validName_iff (l : List Char) :
    validName l = true ↔
      l ≠ [] ∧ matchesIdentRegex l = true ∧
        hasLeadingUnderscore l = false ∧ ¬ HasDoubleUnderscoreAt l := by
  cases l with
  | nil => simp [validName, matchesIdentRegex]
  | cons c rest =>
    simp only [validName, matchesIdentRegex, hasLeadingUnderscore,
      Bool.and_eq_true, ne_eq, reduceCtorEq, not_false_iff, true_and,
      List.head?, Option.some.injEq]
    rw [noDoubleUnderscore_iff]
    constructor
    · rintro ⟨⟨hc, hall⟩, hnd⟩
      refine ⟨⟨by simp [hc], hall⟩, ?_, hnd⟩
      rw [decide_eq_false_iff_not]
      intro hceq
      subst hceq
      simp [isLetter] at hc
    · rintro ⟨⟨hc, hall⟩, hne, hnd⟩
      refine ⟨⟨?_, hall⟩, hnd⟩
      rcases Bool.or_eq_true_iff.mp hc with h | h
      · exact h
      · exact absurd (decide_eq_true_iff.mp h) (decide_eq_false_iff_not.mp hne)

/-! ## Named parameters and the parameter registry

Modelled from the spec: the `GeneratorParam`/`Param` implementation is
outside the source fragment; only its use sites in
`example_generator.cpp` are visible. -/

/-- Whether a parameter is fixed at compile time (a `GeneratorParam`)
or bound at run time (a `Param`). -/
inductive BindingTime where
  | compileTime
  | runtime
deriving DecidableEq, Repr

/-- The closed set of parameter kinds: integer-like or floating numeric
values are both `numeric` (modelled exactly over `ℚ`), plus boolean,
enumerated and opaque-type-valued kinds. -/
inductive ParamKind where
  | numeric
  | boolean
  | enumerated
  | typeValued
deriving DecidableEq, Repr

/-- A stored parameter value. Enumerated parameters store the internal
tag; numeric parameters store an exact rational. -/
inductive ParamValue where
  | num (v : ℚ)
  | boolean (b : Bool)
  | enum (tag : Nat)
  | typeVal (t : String)
deriving DecidableEq, Repr

/-- The kind a stored value belongs to. -/
def ParamValue.kind : ParamValue → ParamKind
  | .num _ => .numeric
  | .boolean _ => .boolean
  | .enum _ => .enumerated
  | .typeVal _ => .typeValued

/-- A value as supplied to `set`: enumerated parameters are set through
their display-name key. -/
inductive SetVal where
  | num (v : ℚ)
  | boolean (b : Bool)
  | enumKey (k : String)
  | typeVal (t : String)
deriving DecidableEq, Repr

/-- Modelled from the spec: one named, typed, validated value slot. -/
structure NamedParam where
  name : String
  kind : ParamKind
  value : ParamValue
  dflt : ParamValue
  bounds : Option (ℚ × ℚ)
  enumMap : Option (List (String × Nat))
  bindingTime : BindingTime
deriving DecidableEq, Repr

/-- Declaration-time failures. `InvalidEnumMap` covers the design
note's both-sides uniqueness check on the enum table. -/
inductive DeclError where
  | InvalidName
  | DuplicateName
  | InvalidBounds
  | InvalidEnumDefault
  | InvalidEnumMap
deriving DecidableEq, Repr

/-- Failures of `set` and `get`. -/
inductive SetError where
  | UnknownParameter
  | TypeMismatch
  | OutOfBounds
  | NotAnEnumKey
  | ImmutableAfterBuild
deriving DecidableEq, Repr

/-- Name-indexed lookup in a registry (the registry is the list of
declared parameters, in declaration order). -/
def findParam (reg : List NamedParam) (name : String) : Option NamedParam :=
  reg.find? (fun p => p.name = name)

/-- Forward lookup in an enum map: display-name key to internal tag. -/
def lookupKey (m : List (String × Nat)) (k : String) : Option Nat :=
  (m.find? (fun e => e.1 = k)).map (fun e => e.2)

/-- Reverse lookup in an enum map: internal tag to display-name key. -/
def reverseLookup (m : List (String × Nat)) (t : Nat) : Option String :=
  (m.find? (fun e => e.2 = t)).map (fun e => e.1)

/-- Modelled from the spec: kind/bounds/enum validation of one `set`
value against the declared slot. Returns the stored value on success;
fails with `TypeMismatch` when the value's kind disagrees, with
`OutOfBounds` when a bounded numeric value is out of range, and with
`NotAnEnumKey` when the key is not in the enum map (lookup is
case-sensitive and exact-match only). -/
def validateSet (p : NamedParam) (v : SetVal) : Except SetError ParamValue :=
  match v, p.kind with
  | .num q, .numeric =>
    match p.bounds with
    | some (lo, hi) =>
      if lo ≤ q ∧ q ≤ hi then .ok (.num q) else .error .OutOfBounds
    | none => .ok (.num q)
  | .boolean b, .boolean => .ok (.boolean b)
  | .enumKey k, .enumerated =>
    match p.enumMap with
    | some m =>
      match lookupKey m k with
      | some tag => .ok (.enum tag)
      | none => .error .NotAnEnumKey
    | none => .error .NotAnEnumKey
  | .typeVal t, .typeValued => .ok (.typeVal t)
  | _, _ => .error .TypeMismatch

/-- Replace the stored value of the parameter called `name`. -/
def storeValue (reg : List NamedParam) (name : String) (nv : ParamValue) :
    List NamedParam :=
  reg.map (fun q => if q.name = name then { q with value := nv } else q)

/-- Modelled from the spec: `set(name, value)` on a registry. `built`
records whether the owning pipeline definition has already executed its
build stage; a compile-time-bound parameter is immutable from then on,
checked before the value itself is validated. -/
def setParam (reg : List NamedParam) (built : Bool) (name : String)
    (v : SetVal) : Except SetError (List NamedParam) :=
  match findParam reg name with
  | none => .error .UnknownParameter
  | some p =>
    if built = true ∧ p.bindingTime = .compileTime then
      .error .ImmutableAfterBuild
    else
      match validateSet p v with
      | .error e => .error e
      | .ok nv => .ok (storeValue reg name nv)

/-- Modelled from the spec: `get(name)` returns the current value; the
only failure is `UnknownParameter`. -/
def getParam (reg : List NamedParam) (name : String) :
    Except SetError ParamValue :=
  match findParam reg name with
  | none => .error .UnknownParameter
  | some p => .ok p.value

/-- Modelled from the spec: bounds validation at declaration time.
Supplying exactly one of min/max is `InvalidBounds`; so is a default
outside the declared range, or bounds on a non-numeric default. -/
def checkBounds (dflt : ParamValue) (mn mx : Option ℚ) :
    Except DeclError (Option (ℚ × ℚ)) :=
  match mn, mx with
  | none, none => .ok none
  | some lo, some hi =>
    match dflt with
    | .num d =>
      if lo ≤ d ∧ d ≤ hi then .ok (some (lo, hi)) else .error .InvalidBounds
    | _ => .error .InvalidBounds
  | _, _ => .error .InvalidBounds

/-- Modelled from the spec: enum-map validation at declaration time.
Display names and tag values must each be duplicate-free, and the
default's tag must be reachable by reverse lookup. -/
def checkEnum (dflt : ParamValue) (em : Option (List (String × Nat))) :
    Except DeclError Unit :=
  match em with
  | none => .ok ()
  | some m =>
    if (m.map (fun e => e.1)).Nodup ∧ (m.map (fun e => e.2)).Nodup then
      match dflt with
      | .enum tag =>
        match reverseLookup m tag with
        | some _ => .ok ()
        | none => .error .InvalidEnumDefault
      | _ => .error .InvalidEnumDefault
    else
      .error .InvalidEnumMap

/-- Modelled from the spec:
`declare(name, kind, default[, min, max][, enum_map])`. Checks the
name grammar, uniqueness in the registry, bounds and enum-map
consistency, in that order, then appends the slot with `value` set to
its default. -/
def declare (reg : List NamedParam) (name : String) (dflt : ParamValue)
    (mn mx : Option ℚ) (em : Option (List (String × Nat)))
    (bt : BindingTime) : Except DeclError (List NamedParam) :=
  if is_valid_name name = false then .error .InvalidName
  else if (findParam reg name).isSome then .error .DuplicateName
  else
    match checkBounds dflt mn mx with
    | .error e => .error e
    | .ok bs =>
      match checkEnum dflt em with
      | .error e => .error e
      | .ok _ =>
        .ok (reg ++ [⟨name, dflt.kind, dflt, dflt, bs, em, bt⟩])

/-! ## Generator factory registry

Modelled from the spec: `RegisterGenerator<Example> register_example{"example"}`
is the only visible use; the registry itself is outside the fragment. -/

/-- Factory-registry failures. -/
inductive RegError where
  | InvalidIdentifier
  | DuplicateIdentifier
  | UnknownIdentifier
deriving DecidableEq, Repr

/-- A factory registry maps an identifier to the initial parameter
registry a fresh instance starts from (the zero-argument constructor's
observable effect). -/
abbrev FactoryRegistry : Type :=
  List (String × List NamedParam)

/-- Identifier lookup in the factory registry. -/
def findFactory (fr : FactoryRegistry) (id : String) :
    Option (List NamedParam) :=
  (fr.find? (fun e => e.1 = id)).map (fun e => e.2)

/-- Modelled from the spec: `register(identifier, factory)`. The
identifier obeys the same name grammar as parameters; a duplicate
identifier is rejected, never silently overwritten. -/
def registerFactory (fr : FactoryRegistry) (id : String)
    (tmpl : List NamedParam) : Except RegError FactoryRegistry :=
  if is_valid_name id = false then .error .InvalidIdentifier
  else if (findFactory fr id).isSome then .error .DuplicateIdentifier
  else .ok (fr ++ [(id, tmpl)])

/-- The observable process state: the (read-only) factory registry and
the parameter registries of every instance created so far. -/
structure ProcessState where
  registry : FactoryRegistry
  instances : List (List NamedParam)

/-- Modelled from the spec: `create(identifier)` returns a fresh
pipeline-definition instance (here: its index) whose parameter state is
a fresh copy of the factory's initial registry, shared with no other
instance. -/
def createInstance (st : ProcessState) (id : String) :
    Except RegError (ProcessState × Nat) :=
  match findFactory st.registry id with
  | none => .error .UnknownIdentifier
  | some tmpl =>
    .ok ({ st with instances := st.instances ++ [tmpl] },
      st.instances.length)

/-- Set a parameter on one instance, leaving every other instance's
state untouched. -/
def mutateInstance (st : ProcessState) (i : Nat) (built : Bool)
    (name : String) (v : SetVal) : Except SetError ProcessState :=
  match st.instances[i]? with
  | none => .error .UnknownParameter
  | some reg =>
    match setParam reg built name v with
    | .error e => .error e
    | .ok reg' => .ok { st with instances := st.instances.set i reg' }

/-! ## The example generator's pipeline

Embedded from `test/generator/example_generator.cpp`:

```
f(x, y) = max(x, y);
g(x, y, c) = cast(output_type, f(x, y) * c * compiletime_factor * runtime_factor);
g.bound(c, 0, channels).reorder(c, x, y).unroll(c);
```

`f(x, y) * c` is an integer expression; multiplying by the float
parameters promotes it to floating point, and the cast truncates back
to the output type. All float values arising in the example are small
dyadic rationals, so float arithmetic is modelled exactly over `ℚ`. -/

/-- The output types the example uses: `UInt(8)` (the default) and
`Int(32)` (set by the self-test). -/
inductive HType where
  | uint8
  | int32
deriving DecidableEq, Repr

/-- C-style truncation toward zero of a rational. -/
def ratTrunc (q : ℚ) : Int :=
  if 0 ≤ q then ⌊q⌋ else -⌊-q⌋

/-- Wrap an integer into the two's-complement range of `Int(32)`. -/
def wrap32 (n : Int) : Int :=
  (n + 2 ^ 31) % 2 ^ 32 - 2 ^ 31

/-- Wrap an integer into the range of `UInt(8)`. -/
def wrap8 (n : Int) : Int :=
  n % 2 ^ 8

/-- Semantics of `cast(output_type, e)` on a float expression: truncate toward zero,
then wrap into the target's range. -/
def castTo (ot : HType) (q : ℚ) : Int :=
  match ot with
  | .uint8 => wrap8 (ratTrunc q)
  | .int32 => wrap32 (ratTrunc q)

/-- The stage `f(x, y) = max(x, y)`. -/
def f_func (x y : Int) : Int :=
  max x y

/-- Pointwise value of
`g(x, y, c) = cast(output_type, f(x, y) * c * compiletime_factor * runtime_factor)`
for given parameter values. -/
def g_at (ot : HType) (compiletime_factor runtime_factor : ℚ)
    (x y c : Int) : Int :=
  castTo ot (((f_func x y * c : Int) : ℚ) * compiletime_factor * runtime_factor)

/-! ### Scheduling annotations -/

/-- One scheduling annotation, as recorded on a stage. -/
inductive SchedDirective where
  | bound (v : String) (lo extent : Int)
  | reorder (vs : List String)
  | unroll (v : String)
deriving DecidableEq, Repr

/-- A pipeline stage: its name and its scheduling annotations in the
order the author applied them. -/
structure Func where
  name : String
  schedule : List SchedDirective
deriving DecidableEq, Repr

/-- Modelled from the spec: `g.bound(v, lo, extent)` appends a bound
annotation (recording preserves author order). -/
def Func.bound (f : Func) (v : String) (lo extent : Int) : Func :=
  { f with schedule := f.schedule ++ [.bound v lo extent] }

/-- Modelled from the spec: `g.reorder(vs...)` appends a reorder
annotation. -/
def Func.reorder (f : Func) (vs : List String) : Func :=
  { f with schedule := f.schedule ++ [.reorder vs] }

/-- Modelled from the spec: `g.unroll(v)` appends an unroll
annotation. -/
def Func.unroll (f : Func) (v : String) : Func :=
  { f with schedule := f.schedule ++ [.unroll v] }

/-- The stage returned by `Example::build()`: `g` with
`g.bound(c, 0, channels).reorder(c, x, y).unroll(c)` applied, for the
current value of the `channels` parameter. -/
def example_build (channels : Int) : Func :=
  (((Func.mk "g" []).bound "c" 0 channels).reorder ["c", "x", "y"]).unroll "c"

/-- Modelled from the spec: the graph representation handed to
lowering carries each stage's annotation list verbatim. -/
def scheduleHandedToLowering (f : Func) : List SchedDirective :=
  f.schedule

/-! ### The example's parameter registry -/

/-- The registry of `Example` right after construction: every declared
parameter, in declaration order, at its default. -/
def exampleRegistry : List NamedParam :=
  [⟨"compiletime_factor", .numeric, .num 1, .num 1, some (0, 100), none,
      .compileTime⟩,
    ⟨"channels", .numeric, .num 4, .num 4, none, none, .compileTime⟩,
    ⟨"enummy", .enumerated, .enum 0, .enum 0, none,
      some [("foo", 0), ("bar", 1)], .compileTime⟩,
    ⟨"flag", .boolean, .boolean true, .boolean true, none, none,
      .compileTime⟩,
    ⟨"output_type", .typeValued, .typeVal "uint8", .typeVal "uint8", none,
      none, .compileTime⟩,
    ⟨"runtime_factor", .numeric, .num 1, .num 1, none, none, .runtime⟩]

/-- The declaration sequence of `Example`'s members, through `declare`. -/
def exampleDeclare : Except DeclError (List NamedParam) :=
  declare [] "compiletime_factor" (.num 1) (some 0) (some 100) none
      .compileTime >>= fun r =>
  declare r "channels" (.num 4) none none none .compileTime >>= fun r =>
  declare r "enummy" (.enum 0) none none (some [("foo", 0), ("bar", 1)])
      .compileTime >>= fun r =>
  declare r "flag" (.boolean true) none none none .compileTime >>= fun r =>
  declare r "output_type" (.typeVal "uint8") none none none
      .compileTime >>= fun r =>
  declare r "runtime_factor" (.num 1) none none none .runtime

/-! ### The self-test check loop

Embedded from `Example::test()`:

```
for (int c = 0; c < out.channels(); c++)
  for (int y = 0; y < out.height(); y++)
    for (int x = 0; x < out.width(); x++) {
      int correct = std::max(x, y) * c * 5;
      if (correct != out(x, y, c)) { printf(...); return false; }
    }
return true;
```
-/

/-- The expected value `std::max(x, y) * c * 5` at one point. -/
def correctVal (x y c : Nat) : Int :=
  (max x y : Nat) * c * 5

/-- The diagnostic the self-test prints at the first mismatch:
`out(x, y, c) = actual instead of expected`. -/
structure MismatchDiag where
  x : Nat
  y : Nat
  c : Nat
  actual : Int
  expected : Int
deriving DecidableEq, Repr

/-- The traversal order of the check loops: `c` outermost, then `y`,
then `x` innermost. -/
def testPoints : List (Nat × Nat × Nat) :=
  (List.range 3).flatMap fun c =>
    (List.range 10).flatMap fun y =>
      (List.range 10).map fun x => (x, y, c)

/-- The check loop over a list of points: stops at the first point
where the output differs from `correctVal`, returning `false` and the
diagnostic; returns `true` if every point matches. -/
def checkLoop (out : Nat → Nat → Nat → Int) :
    List (Nat × Nat × Nat) → Bool × Option MismatchDiag
  | [] => (true, none)
  | (x, y, c) :: rest =>
    if out x y c = correctVal x y c then checkLoop out rest
    else (false, some ⟨x, y, c, out x y c, correctVal x y c⟩)

/-- The verification phase of `Example::test()` on an arbitrary realized
output. -/
def self_test_check (out : Nat → Nat → Nat → Int) :
    Bool × Option MismatchDiag :=
  checkLoop out testPoints

/-- The output the self-test realizes: the pipeline at
`compiletime_factor = 2.5`, `output_type = Int(32)`,
`runtime_factor = 2.0`, over the `10 × 10 × 3` domain. -/
def exampleTestOutput (x y c : Nat) : Int :=
  g_at .int32 (5 / 2) 2 (x : Int) (y : Int) (c : Int)

/-! ## Backend emission

`src/LLVM_Output.h` declares the emission interface; the
implementations are outside the fragment, so serialization is modelled
from the spec as a pure function of the backend representation and the
artifact kind. -/

/-- The four artifact kinds of the emission contract. -/
inductive ArtifactKind where
  | native_object
  | native_assembly
  | portable_bitcode
  | portable_ir_text
deriving DecidableEq, Repr

/-- Modelled from the spec: the target-bound in-memory form derived
once from a compiled module (`compile_module_to_llvm_module`), then
reused across emissions. -/
structure BackendRepresentation where
  targetTriple : String
  functions : List String
deriving DecidableEq, Repr

/-- A tag distinguishing the four serializations. -/
def kindTag : ArtifactKind → Nat
  | .native_object => 0
  | .native_assembly => 1
  | .portable_bitcode => 2
  | .portable_ir_text => 3

/-- Modelled from the spec: the byte stream emitted for one artifact
kind — a distinct serialization of the same representation, a pure
function of the representation and the kind. -/
def serializeArtifact (rep : BackendRepresentation) (k : ArtifactKind) :
    List Nat :=
  kindTag k :: rep.targetTriple.length :: rep.functions.map String.length

/-- One emission call: returns the bytes written to the destination
and the representation as it stands after the call (state passed
explicitly so that non-mutation is a theorem, not an assumption). -/
def emit (rep : BackendRepresentation) (k : ArtifactKind) :
    List Nat × BackendRepresentation :=
  (serializeArtifact rep k, rep)

/-- A sequence of emission calls against one representation, threading
the representation state through the calls. -/
def emitAll (rep : BackendRepresentation) :
    List ArtifactKind → List (List Nat) × BackendRepresentation
  | [] => ([], rep)
  | k :: ks =>
    let step := emit rep k
    let rest := emitAll step.2 ks
    (step.1 :: rest.1, rest.2)

/-! ## Theorems for the claims -/

/-- Whether an `Except` result is a success. -/
def exceptOk : Except ε α → Bool
  | .ok _ => true
  | .error _ => false

instance exceptDecEq [DecidableEq ε] [DecidableEq α] :
    DecidableEq (Except ε α) := fun a b =>
  match a, b with
  | .ok x, .ok y =>
    if h : x = y then .isTrue (by rw [h])
    else .isFalse (by intro hc; cases hc; exact h rfl)
  | .error x, .error y =>
    if h : x = y then .isTrue (by rw [h])
    else .isFalse (by intro hc; cases hc; exact h rfl)
  | .ok _, .error _ => .isFalse (by intro hc; cases hc)
  | .error _, .ok _ => .isFalse (by intro hc; cases hc)

theorem declare_empty_accepts (s : String) (d : ParamValue) :
    exceptOk (declare [] s d none none none .compileTime) =
      is_valid_name s := by
  cases h : is_valid_name s <;>
    simp [declare, h, findParam, checkBounds, checkEnum, exceptOk]

theorem register_empty_accepts (s : String) (tmpl : List NamedParam) :
    exceptOk (registerFactory [] s tmpl) = is_valid_name s := by
  cases h : is_valid_name s <;>
    simp [registerFactory, h, findFactory, exceptOk]

/-- C2: `declare` and `register` accept a candidate name if and only
if it is non-empty, matches `[A-Za-z_][A-Za-z_0-9]*`, does not start
with an underscore, and has no two consecutive underscores; every
other string is rejected. -/
theorem claim_C2_name_validation (s : String) :
    (exceptOk (declare [] s (.num 0) none none none .compileTime) = true ∧
        exceptOk (registerFactory [] s []) = true) ↔
      (s.toList ≠ [] ∧ matchesIdentRegex s.toList = true ∧
        hasLeadingUnderscore s.toList = false ∧
        ¬ HasDoubleUnderscoreAt s.toList) := by
  rw [declare_empty_accepts, register_empty_accepts, ← validName_iff]
  simp [is_valid_name]

/-- C3: once the owning pipeline definition has executed `build()`
(`built = true`), `set` on a compile-time-bound parameter fails with
`ImmutableAfterBuild`, while `set` on a runtime-bound parameter (with a
value that validates) still succeeds. -/
theorem claim_C3_mutation_after_build :
    (∀ (reg : List NamedParam) (name : String) (p : NamedParam)
        (v : SetVal),
        findParam reg name = some p → p.bindingTime = .compileTime →
        setParam reg true name v = .error .ImmutableAfterBuild) ∧
    (∀ (reg : List NamedParam) (name : String) (p : NamedParam)
        (v : SetVal) (nv : ParamValue),
        findParam reg name = some p → p.bindingTime = .runtime →
        validateSet p v = .ok nv →
        setParam reg true name v = .ok (storeValue reg name nv)) := by
  constructor
  · intro reg name p v hf hb
    simp [setParam, hf, hb]
  · intro reg name p v nv hf hb hv
    simp [setParam, hf, hb, hv]

/-- Witness for C3 on the example generator's registry:
`compiletime_factor` is frozen after `build()`, `runtime_factor` is
not. -/
theorem claim_C3_witness :
    setParam exampleRegistry true "compiletime_factor" (.num (5 / 2)) =
        .error .ImmutableAfterBuild ∧
    setParam exampleRegistry true "runtime_factor" (.num 2) =
      .ok (storeValue exampleRegistry "runtime_factor" (.num 2)) := by
  constructor
  · exact claim_C3_mutation_after_build.1 exampleRegistry
      "compiletime_factor"
      ⟨"compiletime_factor", .numeric, .num 1, .num 1, some (0, 100), none,
        .compileTime⟩
      (.num (5 / 2)) (by decide) rfl
  · exact claim_C3_mutation_after_build.2 exampleRegistry
      "runtime_factor"
      ⟨"runtime_factor", .numeric, .num 1, .num 1, none, none, .runtime⟩
      (.num 2) (.num 2) (by decide) rfl rfl

/-- C4: for a numeric parameter declared with bounds `[lo, hi]`,
`set` succeeds exactly when the value lies in `[lo, hi]`; and a
declaration that supplies exactly one of min and max fails with
`InvalidBounds` (for an otherwise well-formed declaration: valid,
non-duplicate name). -/
theorem claim_C4_numeric_bounds :
    (∀ (reg : List NamedParam) (name : String) (p : NamedParam)
        (lo hi q : ℚ),
        findParam reg name = some p → p.kind = .numeric →
        p.bounds = some (lo, hi) →
        ((∃ reg', setParam reg false name (.num q) = .ok reg') ↔
          (lo ≤ q ∧ q ≤ hi))) ∧
    (∀ (reg : List NamedParam) (name : String) (d : ParamValue) (b : ℚ)
        (bt : BindingTime),
        is_valid_name name = true → findParam reg name = none →
        declare reg name d (some b) none none bt = .error .InvalidBounds ∧
          declare reg name d none (some b) none bt =
            .error .InvalidBounds) := by
  constructor
  · intro reg name p lo hi q hf hk hb
    by_cases hin : lo ≤ q ∧ q ≤ hi
    · simp [setParam, hf, validateSet, hk, hb, hin]
    · simp [setParam, hf, validateSet, hk, hb, hin]
  · intro reg name d b bt hvalid hfind
    constructor
    · simp [declare, hvalid, hfind, checkBounds]
    · simp [declare, hvalid, hfind, checkBounds]

/-- Witness for C4 on the example's `compiletime_factor` (bounds
`[0, 100]`), and a half-bounded declaration rejected with
`InvalidBounds`. -/
theorem claim_C4_witness :
    ((∃ reg', setParam exampleRegistry false "compiletime_factor"
          (.num (5 / 2)) = .ok reg') ↔
        ((0 : ℚ) ≤ 5 / 2 ∧ (5 / 2 : ℚ) ≤ 100)) ∧
    declare exampleRegistry "half_bounded" (.num 0) (some 0) none none
        .compileTime = .error .InvalidBounds := by
  constructor
  · exact claim_C4_numeric_bounds.1 exampleRegistry "compiletime_factor"
      ⟨"compiletime_factor", .numeric, .num 1, .num 1, some (0, 100), none,
        .compileTime⟩
      0 100 (5 / 2) (by decide) rfl rfl
  · exact (claim_C4_numeric_bounds.2 exampleRegistry "half_bounded"
      (.num 0) 0 .compileTime (by decide) (by decide)).1

theorem lookupKey_isSome_iff (m : List (String × Nat)) (k : String) :
    (lookupKey m k).isSome = true ↔ k ∈ m.map (fun e => e.1) := by
  unfold lookupKey
  cases hf : m.find? (fun e => e.1 = k) with
  | none =>
    simp only [hf, Option.map_none', Option.isSome_none,
      Bool.false_eq_true, false_iff]
    intro hk
    obtain ⟨e, hem, hek⟩ := List.mem_map.mp hk
    have hsome : (m.find? (fun e => decide (e.1 = k))).isSome = true :=
      List.find?_isSome.mpr ⟨e, hem, by simpa using hek⟩
    rw [hf] at hsome
    simp at hsome
  | some e =>
    simp only [hf, Option.map_some', Option.isSome_some, true_iff]
    have he := List.find?_some hf
    have hm := List.mem_of_find?_eq_some hf
    exact List.mem_map.mpr ⟨e, hm, by simpa using he⟩

theorem lookupKey_mem (m : List (String × Nat)) (k : String) (tag : Nat)
    (h : lookupKey m k = some tag) : (k, tag) ∈ m := by
  unfold lookupKey at h
  cases hf : m.find? (fun e => e.1 = k) with
  | none => rw [hf] at h; simp at h
  | some e =>
    rw [hf] at h
    simp only [Option.map_some'] at h
    have he1 : e.1 = k := by simpa using List.find?_some hf
    have hm := List.mem_of_find?_eq_some hf
    obtain ⟨e1, e2⟩ := e
    simp only at he1 h
    obtain rfl := Option.some.inj h
    rw [← he1]
    exact hm

theorem reverseLookup_of_mem (m : List (String × Nat)) (k : String)
    (tag : Nat) (hnd : (m.map (fun e => e.2)).Nodup)
    (hmem : (k, tag) ∈ m) : reverseLookup m tag = some k := by
  induction m with
  | nil => simp at hmem
  | cons a rest ih =>
    rw [List.map_cons, List.nodup_cons] at hnd
    obtain ⟨ha, hrest⟩ := hnd
    rcases List.mem_cons.mp hmem with heq | hmem'
    · rw [← heq]
      simp [reverseLookup, List.find?_cons_of_pos]
    · have hne : ¬ (a.2 = tag) := by
        intro hcontra
        exact ha (hcontra ▸ List.mem_map.mpr ⟨(k, tag), hmem', rfl⟩)
      unfold reverseLookup
      rw [List.find?_cons_of_neg _ (by simpa using hne)]
      exact ih hrest hmem'

theorem findParam_storeValue (reg : List NamedParam) (name : String)
    (p : NamedParam) (nv : ParamValue) (h : findParam reg name = some p) :
    findParam (storeValue reg name nv) name =
      some { p with value := nv } := by
  induction reg with
  | nil => simp [findParam] at h
  | cons q rest ih =>
    by_cases hq : q.name = name
    · unfold findParam at h
      rw [List.find?_cons_of_pos _ (by simpa using hq)] at h
      obtain rfl := Option.some.inj h
      unfold findParam storeValue
      simp only [List.map_cons, if_pos hq]
      exact List.find?_cons_of_pos _ (by simpa using hq)
    · unfold findParam at h
      rw [List.find?_cons_of_neg _ (by simpa using hq)] at h
      unfold findParam storeValue
      simp only [List.map_cons, if_neg hq]
      rw [List.find?_cons_of_neg _ (by simpa using hq)]
      exact ih h

/-- C5: for an enumerated parameter, `set(name, key)` succeeds exactly
when `key` is a key of the declared enum map (case-sensitive exact
string match), and after a successful `set` the stored value's reverse
lookup through the enum map returns `key`. The map's tag values are
duplicate-free, as enforced at declaration time. -/
theorem claim_C5_enum_roundtrip :
    ∀ (reg : List NamedParam) (name : String) (p : NamedParam)
      (m : List (String × Nat)) (k : String),
      findParam reg name = some p → p.kind = .enumerated →
      p.enumMap = some m → (m.map (fun e => e.2)).Nodup →
      (((∃ reg', setParam reg false name (.enumKey k) = .ok reg') ↔
          k ∈ m.map (fun e => e.1)) ∧
        ∀ tag, lookupKey m k = some tag →
          setParam reg false name (.enumKey k) =
              .ok (storeValue reg name (.enum tag)) ∧
            getParam (storeValue reg name (.enum tag)) name =
              .ok (.enum tag) ∧
            reverseLookup m tag = some k) := by
  intro reg name p m k hf hk hm hnd
  constructor
  · rw [← lookupKey_isSome_iff]
    cases hl : lookupKey m k with
    | none => simp [setParam, hf, validateSet, hk, hm, hl]
    | some tag => simp [setParam, hf, validateSet, hk, hm, hl]
  · intro tag hl
    refine ⟨by simp [setParam, hf, validateSet, hk, hm, hl], ?_, ?_⟩
    · have hfs := findParam_storeValue reg name p (.enum tag) hf
      simp [getParam, hfs]
    · exact reverseLookup_of_mem m k tag hnd (lookupKey_mem m k tag hl)

/-- Witness for C5 on the example's `enummy` parameter and the key
`"bar"` of its map `{"foo" ↦ 0, "bar" ↦ 1}`. -/
theorem claim_C5_witness :
    setParam exampleRegistry false "enummy" (.enumKey "bar") =
        .ok (storeValue exampleRegistry "enummy" (.enum 1)) ∧
      getParam (storeValue exampleRegistry "enummy" (.enum 1)) "enummy" =
        .ok (.enum 1) ∧
      reverseLookup [("foo", 0), ("bar", 1)] 1 = some "bar" :=
  (claim_C5_enum_roundtrip exampleRegistry "enummy"
    ⟨"enummy", .enumerated, .enum 0, .enum 0, none,
      some [("foo", 0), ("bar", 1)], .compileTime⟩
    [("foo", 0), ("bar", 1)] "bar" (by decide) rfl rfl (by decide)).2
    1 (by decide)

/-- C6: in the factory registry, registering an already-registered
identifier fails with `DuplicateIdentifier` (never overwrites);
`create` on an unregistered identifier fails with `UnknownIdentifier`;
two `create` calls for one identifier yield distinct instances, each
starting from the factory's initial parameter state; and mutating one
instance's parameters never affects another instance. -/
theorem claim_C6_factory_registry :
    (∀ (fr : FactoryRegistry) (id : String) (tmpl : List NamedParam),
        is_valid_name id = true → (findFactory fr id).isSome = true →
        registerFactory fr id tmpl = .error .DuplicateIdentifier) ∧
    (∀ (st : ProcessState) (id : String),
        findFactory st.registry id = none →
        createInstance st id = .error .UnknownIdentifier) ∧
    (∀ (st : ProcessState) (id : String) (tmpl : List NamedParam)
        (st1 : ProcessState) (i1 : Nat) (st2 : ProcessState) (i2 : Nat),
        findFactory st.registry id = some tmpl →
        createInstance st id = .ok (st1, i1) →
        createInstance st1 id = .ok (st2, i2) →
        i1 ≠ i2 ∧ st2.instances[i1]? = some tmpl ∧
          st2.instances[i2]? = some tmpl) ∧
    (∀ (st : ProcessState) (i j : Nat) (built : Bool) (name : String)
        (v : SetVal) (st' : ProcessState),
        i ≠ j → mutateInstance st i built name v = .ok st' →
        st'.instances[j]? = st.instances[j]?) := by
  refine ⟨?_, ?_, ?_, ?_⟩
  · intro fr id tmpl hvalid hsome
    simp [registerFactory, hvalid, hsome]
  · intro st id hfind
    simp [createInstance, hfind]
  · intro st id tmpl st1 i1 st2 i2 hfind h1 h2
    simp only [createInstance, hfind] at h1
    obtain ⟨hst1, hi1⟩ := Prod.mk.injEq .. ▸ Except.ok.inj h1
    subst hst1
    simp only [createInstance, hfind] at h2
    obtain ⟨hst2, hi2⟩ := Prod.mk.injEq .. ▸ Except.ok.inj h2
    subst hst2
    subst hi1
    subst hi2
    refine ⟨by simp, ?_, ?_⟩
    · simp only
      rw [List.getElem?_append_left (by simp)]
      exact List.getElem?_concat_length st.instances tmpl
    · simp only [List.length_append, List.length_cons, List.length_nil]
      have := List.getElem?_concat_length (st.instances ++ [tmpl]) tmpl
      simpa using this
  · intro st i j built name v st' hij hmut
    cases hi : st.instances[i]? with
    | none =>
      simp only [mutateInstance, hi] at hmut
      cases hmut
    | some reg =>
      simp only [mutateInstance, hi] at hmut
      cases hs : setParam reg built name v with
      | error e =>
        simp only [hs] at hmut
        cases hmut
      | ok reg' =>
        simp only [hs] at hmut
        obtain rfl := Except.ok.inj hmut
        exact List.getElem?_set_ne hij

/-- A one-generator factory registry holding the example generator. -/
def exampleFactoryRegistry : FactoryRegistry :=
  [("example", exampleRegistry)]

/-- Witness for C6: duplicate registration of `"example"` is rejected,
`create` on a missing identifier fails, two creations are independent,
and mutating instance 0 leaves instance 1 untouched. -/
theorem claim_C6_witness :
    registerFactory exampleFactoryRegistry "example" exampleRegistry =
        .error .DuplicateIdentifier ∧
      createInstance ⟨exampleFactoryRegistry, []⟩ "missing" =
        .error .UnknownIdentifier ∧
      ((0 : Nat) ≠ 1 ∧
        (⟨exampleFactoryRegistry,
            [exampleRegistry, exampleRegistry]⟩ : ProcessState).instances[0]? =
          some exampleRegistry ∧
        (⟨exampleFactoryRegistry,
            [exampleRegistry, exampleRegistry]⟩ : ProcessState).instances[1]? =
          some exampleRegistry) ∧
      (⟨exampleFactoryRegistry,
          [storeValue exampleRegistry "runtime_factor" (.num 2),
            exampleRegistry]⟩ : ProcessState).instances[1]? =
        (⟨exampleFactoryRegistry,
            [exampleRegistry, exampleRegistry]⟩ : ProcessState).instances[1]? := by
  refine ⟨?_, ?_, ?_, ?_⟩
  · exact claim_C6_factory_registry.1 exampleFactoryRegistry "example"
      exampleRegistry (by decide) (by decide)
  · exact claim_C6_factory_registry.2.1 ⟨exampleFactoryRegistry, []⟩
      "missing" (by decide)
  · exact claim_C6_factory_registry.2.2.1 ⟨exampleFactoryRegistry, []⟩
      "example" exampleRegistry ⟨exampleFactoryRegistry, [exampleRegistry]⟩
      0 ⟨exampleFactoryRegistry, [exampleRegistry, exampleRegistry]⟩ 1
      (by decide) rfl rfl
  · exact claim_C6_factory_registry.2.2.2
      ⟨exampleFactoryRegistry, [exampleRegistry, exampleRegistry]⟩ 0 1
      false "runtime_factor" (.num 2)
      ⟨exampleFactoryRegistry,
        [storeValue exampleRegistry "runtime_factor" (.num 2),
          exampleRegistry]⟩
      (by decide) rfl

theorem ratTrunc_intCast (n : Int) : ratTrunc ((n : Int) : ℚ) = n := by
  unfold ratTrunc
  by_cases h : (0 : ℚ) ≤ (n : ℚ)
  · simp [h, Int.floor_intCast]
  · simp only [h, if_false]
    rw [show (-(n : ℚ)) = ((-n : Int) : ℚ) by push_cast; ring,
      Int.floor_intCast]
    ring

theorem wrap32_eq_of_range (n : Int) (h1 : -(2 ^ 31) ≤ n)
    (h2 : n < 2 ^ 31) : wrap32 n = n := by
  unfold wrap32
  have e1 : (2 : Int) ^ 31 = 2147483648 := by norm_num
  have e2 : (2 : Int) ^ 32 = 4294967296 := by norm_num
  rw [e1, e2] at *
  rw [Int.emod_eq_of_lt (by omega) (by omega)]
  omega

/-- The example pipeline at `output_type = Int(32)`,
`compiletime_factor = 2.5`, `runtime_factor = 2.0` computes
`max(x, y) * c * 5` exactly whenever that value fits in `Int(32)`. -/
theorem g_at_example (x y c : Int)
    (h1 : -(2 ^ 31) ≤ f_func x y * c * 5)
    (h2 : f_func x y * c * 5 < 2 ^ 31) :
    g_at .int32 (5 / 2) 2 x y c = f_func x y * c * 5 := by
  unfold g_at castTo
  have hq : ((f_func x y * c : Int) : ℚ) * (5 / 2) * 2 =
      ((f_func x y * c * 5 : Int) : ℚ) := by
    push_cast
    ring
  rw [hq, ratTrunc_intCast, wrap32_eq_of_range _ h1 h2]

theorem example_value_bounds (x y c : Int) (hx0 : 0 ≤ x) (hx : x < 10)
    (hy0 : 0 ≤ y) (hy : y < 10) (hc0 : 0 ≤ c) (hc : c < 3) :
    0 ≤ f_func x y * c * 5 ∧ f_func x y * c * 5 ≤ 90 := by
  unfold f_func
  have hm0 : 0 ≤ max x y := le_max_of_le_left hx0
  have hm9 : max x y ≤ 9 := max_le (by omega) (by omega)
  constructor
  · exact mul_nonneg (mul_nonneg hm0 hc0) (by norm_num)
  · nlinarith

theorem findParam_storeValue_ne (reg : List NamedParam)
    (name name' : String) (nv : ParamValue) (h : ¬ (name = name')) :
    findParam (storeValue reg name nv) name' = findParam reg name' := by
  induction reg with
  | nil => rfl
  | cons q rest ih =>
    unfold findParam storeValue at *
    simp only [List.map_cons]
    by_cases hq : q.name = name'
    · have hqn : ¬ (q.name = name) := by
        intro hh
        apply h
        rw [← hh]
        exact hq
      rw [if_neg hqn, List.find?_cons_of_pos _ (by simpa using hq),
        List.find?_cons_of_pos _ (by simpa using hq)]
    · by_cases hqn : q.name = name
      · rw [if_pos hqn, List.find?_cons_of_neg _ (by simpa using hq),
          List.find?_cons_of_neg _ (by simpa using hq)]
        exact ih
      · rw [if_neg hqn, List.find?_cons_of_neg _ (by simpa using hq),
          List.find?_cons_of_neg _ (by simpa using hq)]
        exact ih

/-- The configuration sequence of `Example::test()` on the registry:
set `compiletime_factor` to `2.5` before build, set `runtime_factor`
to `2.0` after build; both succeed and both values read back. -/
theorem example_config_sequence :
    ∃ r1 r2, setParam exampleRegistry false "compiletime_factor"
        (.num (5 / 2)) = .ok r1 ∧
      setParam r1 true "runtime_factor" (.num 2) = .ok r2 ∧
      getParam r2 "compiletime_factor" = .ok (.num (5 / 2)) ∧
      getParam r2 "runtime_factor" = .ok (.num 2) := by
  have hf1 : findParam exampleRegistry "compiletime_factor" =
      some ⟨"compiletime_factor", .numeric, .num 1, .num 1, some (0, 100),
        none, .compileTime⟩ := by decide
  have hv1 : validateSet
      ⟨"compiletime_factor", .numeric, .num 1, .num 1, some (0, 100),
        none, .compileTime⟩ (.num (5 / 2)) = .ok (.num (5 / 2)) := by
    show (if (0 : ℚ) ≤ 5 / 2 ∧ (5 / 2 : ℚ) ≤ 100 then
        Except.ok (ParamValue.num (5 / 2))
      else Except.error SetError.OutOfBounds) = .ok (.num (5 / 2))
    rw [if_pos (by norm_num)]
  refine ⟨storeValue exampleRegistry "compiletime_factor" (.num (5 / 2)),
    storeValue (storeValue exampleRegistry "compiletime_factor"
      (.num (5 / 2))) "runtime_factor" (.num 2), ?_, ?_, ?_, ?_⟩
  · simp [setParam, hf1, hv1]
  · have hf2 : findParam (storeValue exampleRegistry "compiletime_factor"
        (.num (5 / 2))) "runtime_factor" =
        some ⟨"runtime_factor", .numeric, .num 1, .num 1, none, none,
          .runtime⟩ := by
      rw [findParam_storeValue_ne _ _ _ _ (by decide)]
      decide
    simp [setParam, hf2]
    rfl
  · have hf3 : findParam (storeValue (storeValue exampleRegistry
        "compiletime_factor" (.num (5 / 2))) "runtime_factor" (.num 2))
        "compiletime_factor" =
        some ⟨"compiletime_factor", .numeric, .num (5 / 2), .num 1,
          some (0, 100), none, .compileTime⟩ := by
      rw [findParam_storeValue_ne _ _ _ _ (by decide)]
      exact findParam_storeValue exampleRegistry "compiletime_factor" _
        (.num (5 / 2)) hf1
    simp [getParam, hf3]
  · have hf2 : findParam (storeValue exampleRegistry "compiletime_factor"
        (.num (5 / 2))) "runtime_factor" =
        some ⟨"runtime_factor", .numeric, .num 1, .num 1, none, none,
          .runtime⟩ := by
      rw [findParam_storeValue_ne _ _ _ _ (by decide)]
      decide
    have hf4 := findParam_storeValue (storeValue exampleRegistry
      "compiletime_factor" (.num (5 / 2))) "runtime_factor" _ (.num 2) hf2
    simp [getParam, hf4]

/-- C1: with `compiletime_factor = 2.5` set before `build()` and
`runtime_factor = 2.0` set afterwards (both `set` calls succeed),
every output element over the `10 × 10 × 3` domain equals
`max(x, y) * c * compiletime_factor * runtime_factor`, and at
`x = 3, y = 7, c = 2` the value is `70`. -/
theorem claim_C1_example_pipeline :
    (∃ r1 r2, setParam exampleRegistry false "compiletime_factor"
          (.num (5 / 2)) = .ok r1 ∧
        setParam r1 true "runtime_factor" (.num 2) = .ok r2 ∧
        getParam r2 "compiletime_factor" = .ok (.num (5 / 2)) ∧
        getParam r2 "runtime_factor" = .ok (.num 2)) ∧
    (∀ x y c : Int, 0 ≤ x → x < 10 → 0 ≤ y → y < 10 → 0 ≤ c → c < 3 →
        ((g_at .int32 (5 / 2) 2 x y c : Int) : ℚ) =
          ((max x y : Int) : ℚ) * (c : ℚ) * (5 / 2) * 2) ∧
    g_at .int32 (5 / 2) 2 3 7 2 = 70 := by
  refine ⟨?_, ?_, ?_⟩
  · exact example_config_sequence
  · intro x y c hx0 hx hy0 hy hc0 hc
    obtain ⟨hv0, hv90⟩ := example_value_bounds x y c hx0 hx hy0 hy hc0 hc
    rw [g_at_example x y c (by norm_num; omega) (by norm_num; omega)]
    unfold f_func
    push_cast
    ring
  · have := g_at_example 3 7 2 (by norm_num [f_func]) (by norm_num [f_func])
    simpa [f_func] using this

/-- Witness for C1, instantiated at `x = 3, y = 7, c = 2`. -/
theorem claim_C1_witness :
    ((g_at .int32 (5 / 2) 2 3 7 2 : Int) : ℚ) =
        ((max (3 : Int) 7 : Int) : ℚ) * ((2 : Int) : ℚ) * (5 / 2) * 2 ∧
      g_at .int32 (5 / 2) 2 3 7 2 = 70 :=
  ⟨claim_C1_example_pipeline.2.1 3 7 2 (by norm_num) (by norm_num)
      (by norm_num) (by norm_num) (by norm_num) (by norm_num),
    claim_C1_example_pipeline.2.2⟩

/-- C7: each emission call is a pure, repeatable serialization: any
sequence of artifact-kind emissions against one backend representation
leaves the representation unchanged, and each emitted byte stream is a
function of the original representation and the kind alone (hence
order-independent and repeatable). -/
theorem claim_C7_emission_pure (rep : BackendRepresentation)
    (ks : List ArtifactKind) :
    (emitAll rep ks).2 = rep ∧
      (emitAll rep ks).1 = ks.map (serializeArtifact rep) := by
  induction ks with
  | nil => exact ⟨rfl, rfl⟩
  | cons k ks ih =>
    simp only [emitAll, emit, List.map_cons]
    exact ⟨ih.1, by rw [ih.2]⟩

/-- C9: the graph `build()` returns records the example's scheduling
annotations exactly in declaration order — `bound` on `c`, then
`reorder` to `(c, x, y)`, then `unroll` of `c` — and the representation
handed to lowering carries that list verbatim. -/
theorem claim_C9_schedule_order :
    (∀ channels : Int,
        scheduleHandedToLowering (example_build channels) =
          [.bound "c" 0 channels, .reorder ["c", "x", "y"],
            .unroll "c"]) ∧
    (∀ f : Func, scheduleHandedToLowering f = f.schedule) :=
  ⟨fun _ => rfl, fun _ => rfl⟩

/-- Single-precision representability: a rational that is a dyadic
`m * 2 ^ e` with `|m| < 2 ^ 24` is an exact `float`, so IEEE operations
whose exact results satisfy this predicate incur no rounding. -/
def floatRepresentable (q : ℚ) : Prop :=
  ∃ m e : Int, |m| < 2 ^ 24 ∧ q = (m : ℚ) * (2 : ℚ) ^ e

/-- C10: `2.5 * 2.0` is exactly `5` (with both factors and the product
exactly representable in single precision); over the whole
`10 × 10 × 3` domain `max(x, y) * c * 5` lies in `[0, 90]` and every
intermediate float product is representable, so the `Int(32)` cast is
exact and the comparison against `max(x, y) * c * 5` involves no
rounding anywhere in the domain. -/
theorem claim_C10_float_exactness :
    ((5 : ℚ) / 2) * 2 = 5 ∧
    floatRepresentable ((5 : ℚ) / 2) ∧
    floatRepresentable (2 : ℚ) ∧
    floatRepresentable ((5 : ℚ) / 2 * 2) ∧
    (∀ x y c : Int, 0 ≤ x → x < 10 → 0 ≤ y → y < 10 → 0 ≤ c → c < 3 →
        0 ≤ f_func x y * c * 5 ∧ f_func x y * c * 5 ≤ 90 ∧
        floatRepresentable ((f_func x y * c : Int) : ℚ) ∧
        floatRepresentable (((f_func x y * c : Int) : ℚ) * (5 / 2)) ∧
        castTo .int32 ((f_func x y * c * 5 : Int) : ℚ) =
          f_func x y * c * 5) := by
  refine ⟨by norm_num, ⟨5, -1, by norm_num, by norm_num⟩,
    ⟨2, 0, by norm_num, by norm_num⟩, ⟨5, 0, by norm_num, by norm_num⟩, ?_⟩
  intro x y c hx0 hx hy0 hy hc0 hc
  obtain ⟨hv0, hv90⟩ := example_value_bounds x y c hx0 hx hy0 hy hc0 hc
  have habs : |f_func x y * c * 5| < 2 ^ 24 := by
    rw [abs_of_nonneg hv0]
    omega
  refine ⟨hv0, hv90, ?_, ?_, ?_⟩
  · refine ⟨f_func x y * c, 0, ?_, by push_cast; ring⟩
    have : |f_func x y * c| ≤ 18 := by
      rw [abs_of_nonneg (by nlinarith)]
      omega
    omega
  · refine ⟨f_func x y * c * 5, -1, habs, ?_⟩
    push_cast
    rw [zpow_neg_one]
    field_simp
  · unfold castTo
    rw [ratTrunc_intCast, wrap32_eq_of_range _ (by norm_num; omega)
      (by norm_num; omega)]

/-- Witness for C10, instantiated at `x = 3, y = 7, c = 2`. -/
theorem claim_C10_witness :
    0 ≤ f_func 3 7 * 2 * 5 ∧ f_func 3 7 * 2 * 5 ≤ 90 ∧
      floatRepresentable ((f_func 3 7 * 2 : Int) : ℚ) ∧
      floatRepresentable (((f_func 3 7 * 2 : Int) : ℚ) * (5 / 2)) ∧
      castTo .int32 ((f_func 3 7 * 2 * 5 : Int) : ℚ) =
        f_func 3 7 * 2 * 5 :=
  claim_C10_float_exactness.2.2.2.2 3 7 2 (by norm_num) (by norm_num)
    (by norm_num) (by norm_num) (by norm_num) (by norm_num)

theorem checkLoop_fst_true_iff (out : Nat → Nat → Nat → Int)
    (l : List (Nat × Nat × Nat)) :
    (checkLoop out l).1 = true ↔
      ∀ p ∈ l, out p.1 p.2.1 p.2.2 = correctVal p.1 p.2.1 p.2.2 := by
  induction l with
  | nil => simp [checkLoop]
  | cons p rest ih =>
    obtain ⟨x, y, c⟩ := p
    by_cases h : out x y c = correctVal x y c
    · simp [checkLoop, h, ih]
    · simp only [checkLoop, if_neg h]
      constructor
      · intro hfalse
        exact absurd hfalse (by simp)
      · intro hall
        exact absurd (hall (x, y, c) (List.mem_cons_self _ _)) h

theorem checkLoop_append_of_true (out : Nat → Nat → Nat → Int)
    (l1 l2 : List (Nat × Nat × Nat))
    (h : (checkLoop out l1).1 = true) :
    checkLoop out (l1 ++ l2) = checkLoop out l2 := by
  induction l1 with
  | nil => rfl
  | cons p rest ih =>
    obtain ⟨x, y, c⟩ := p
    by_cases hp : out x y c = correctVal x y c
    · simp only [checkLoop, if_pos hp] at h
      simp only [List.cons_append, checkLoop, if_pos hp]
      exact ih h
    · simp only [checkLoop, if_neg hp] at h
      exact absurd h (by simp)

/-- C8: the self-test's verification phase is a total boolean check —
it passes exactly when every point of the `10 × 10 × 3` domain matches
`max(x, y) * c * 5`, and at the first mismatching point (in the loop's
`c`-outer, `y`, `x`-inner order) it stops and returns `false` together
with the diagnostic carrying the actual and expected value there; it
never throws or aborts. -/
theorem claim_C8_self_test :
    (∀ out : Nat → Nat → Nat → Int,
        (self_test_check out).1 = true ↔
          ∀ p ∈ testPoints,
            out p.1 p.2.1 p.2.2 = correctVal p.1 p.2.1 p.2.2) ∧
    (∀ (out : Nat → Nat → Nat → Int) (i x y c : Nat),
        testPoints[i]? = some (x, y, c) →
        (checkLoop out (testPoints.take i)).1 = true →
        ¬ (out x y c = correctVal x y c) →
        self_test_check out =
          (false, some ⟨x, y, c, out x y c, correctVal x y c⟩)) := by
  constructor
  · intro out
    exact checkLoop_fst_true_iff out testPoints
  · intro out i x y c hi htake hmis
    obtain ⟨hlt, hget⟩ := List.getElem?_eq_some.mp hi
    have hsplit : testPoints =
        testPoints.take i ++ ((x, y, c) :: testPoints.drop (i + 1)) := by
      conv_lhs => rw [← List.take_append_drop i testPoints]
      rw [List.drop_eq_getElem_cons hlt, hget]
    unfold self_test_check
    rw [hsplit, checkLoop_append_of_true out _ _ htake]
    simp [checkLoop, hmis]

set_option maxRecDepth 4000 in
/-- Witness for C8: the all-zero output first mismatches at
`x = 1, y = 0, c = 1` (index 101 in loop order), where the expected
value is `5`; the check returns `false` with that diagnostic. -/
theorem claim_C8_witness :
    self_test_check (fun _ _ _ => 0) = (false, some ⟨1, 0, 1, 0, 5⟩) :=
  claim_C8_self_test.2 (fun _ _ _ => 0) 101 1 0 1 (by decide) (by decide)
    (by decide)

end HalideSpec
